import Mathlib

set_option maxRecDepth 8192

/-!
Shallow embedding of `src/dhcp_packet.rs` (p2mate/dhcp-rs), a nom-based
BOOTP/DHCP packet decoder. Bytes are modelled as `Nat`, byte slices as
`List Nat`. A nom parser `Input -> IResult<Input, T, ()>` becomes
`List Nat → Except PErr (List Nat × T)`; success carries the remaining
input and the value, exactly as nom's `Ok((rest, value))`.

The Rust code can abort the process with `panic!` / `.unwrap()` on some
inputs; an abort is modelled as the distinguished outcome `PErr.panic`,
kept separate from nom's recoverable error `PErr.fail` (the source's
error type is `()`, so all recoverable errors are one value).
-/

/-- Outcome of a parse step that did not produce a value: either nom's
recoverable error (`Err::Error(())` in the source) or a process abort
(`panic!` / `.unwrap()` in the source). -/
inductive PErr where
  | fail
  | panic
deriving Repr, DecidableEq

/-- Source type alias: `Input` is a byte slice. -/
abbrev Input := List Nat

/-- Source type alias: `Result T` is `nom::IResult<Input, T, ()>`. -/
abbrev PResult (α : Type) := Except PErr (Input × α)

/-- A nom parser over byte slices. -/
abbrev Parser (α : Type) := Input → PResult α

namespace Nom

/-- nom's `be_u8`: one byte. -/
def be_u8 : Parser Nat
  | [] => .error .fail
  | b :: rest => .ok (rest, b)

/-- nom's `be_u16`: two bytes, big endian. -/
def be_u16 : Parser Nat
  | b1 :: b0 :: rest => .ok (rest, b1 * 256 + b0)
  | _ => .error .fail

/-- nom's `be_u32`: four bytes, big endian. -/
def be_u32 : Parser Nat
  | b3 :: b2 :: b1 :: b0 :: rest =>
      .ok (rest, ((b3 * 256 + b2) * 256 + b1) * 256 + b0)
  | _ => .error .fail

/-- nom's `take(n)`: the next `n` bytes. -/
def take (n : Nat) : Parser (List Nat) := fun buf =>
  if n ≤ buf.length then .ok (buf.drop n, buf.take n) else .error .fail

/-- nom's `tag(t)`: the literal byte sequence `t`. -/
def tag (t : List Nat) : Parser (List Nat) := fun buf =>
  if t.isPrefixOf buf then .ok (buf.drop t.length, t) else .error .fail

/-- nom's `map(p, f)`. -/
def map (p : Parser α) (f : α → β) : Parser β := fun buf =>
  match p buf with
  | .error e => .error e
  | .ok (rest, a) => .ok (rest, f a)

/-- nom's `value(v, p)`. -/
def value (v : β) (p : Parser α) : Parser β := map p (fun _ => v)

/-- nom's `verify(p, cond)`: run `p`, fail unless the value satisfies `cond`. -/
def verify (p : Parser α) (cond : α → Bool) : Parser α := fun buf =>
  match p buf with
  | .error e => .error e
  | .ok (rest, a) => if cond a then .ok (rest, a) else .error .fail

/-- Sequencing of two parsers; nom's `tuple`, `preceded` and `terminated`
are all built from this. -/
def andThen (p : Parser α) (f : α → Parser β) : Parser β := fun buf =>
  match p buf with
  | .error e => .error e
  | .ok (rest, a) => f a rest

/-- nom's `preceded(p, q)`: run `p`, discard its value, run `q`. -/
def preceded (p : Parser α) (q : Parser β) : Parser β :=
  andThen p (fun _ => q)

/-- nom's `terminated(p, q)`: run `p`, then `q`, keep `p`'s value. -/
def terminated (p : Parser α) (q : Parser β) : Parser α :=
  andThen p (fun a => map q (fun _ => a))

/-- nom's `length_data(lenp)`: read a length with `lenp`, then that many
raw bytes. -/
def length_data (lenp : Parser Nat) : Parser (List Nat) :=
  andThen lenp (fun n => take n)

/-- nom's `map_parser(outer, inner)`: run `outer` to obtain a byte span,
run `inner` on that span (it need not consume all of it), return `inner`'s
value with `outer`'s remaining input. -/
def mapParser (outer : Parser (List Nat)) (inner : Parser α) : Parser α := fun buf =>
  match outer buf with
  | .error e => .error e
  | .ok (rest, data) =>
    match inner data with
    | .error e => .error e
    | .ok (_, a) => .ok (rest, a)

/-- The loop body of nom's `fold_many0`, with explicit fuel. nom loops
until the embedded parser returns a recoverable error (which is swallowed:
the fold stops and succeeds with the accumulator), propagating anything
else; an iteration that consumes no input is turned into an error, nom's
infinite-loop guard. Every embedded parser used in the source consumes at
least one byte per successful step, so `input.length + 1` units of fuel
are never exhausted and the fuel-out branch is unreachable. -/
def fold_go (p : Parser α) (g : β → α → β) : Nat → β → Input → PResult β
  | 0, _, _ => .error .fail
  | fuel + 1, acc, buf =>
    match p buf with
    | .error .fail => .ok (buf, acc)
    | .error .panic => .error .panic
    | .ok (buf', a) =>
      if buf' = buf then .error .fail
      else fold_go p g fuel (g acc a) buf'

/-- nom's `fold_many0(p, init, g)`. -/
def fold_many0 (p : Parser α) (init : β) (g : β → α → β) : Parser β :=
  fun buf => fold_go p g (buf.length + 1) init buf

end Nom

/-- Source: `std::net::Ipv4Addr`, built from four octets. -/
structure Ipv4Addr where
  a : Nat
  b : Nat
  c : Nat
  d : Nat
deriving Repr, DecidableEq

/-- Source: `Ipv4Addr::new`. -/
def Ipv4Addr.new (a b c d : Nat) : Ipv4Addr := ⟨a, b, c, d⟩

/-- Source: `pnet::datalink::MacAddr`: six octets. -/
structure MacAddr where
  m0 : Nat
  m1 : Nat
  m2 : Nat
  m3 : Nat
  m4 : Nat
  m5 : Nat
deriving Repr, DecidableEq

/-- Source: `pnet::packet::arp::ArpHardwareType`: a numeric hardware-type code;
`ArpHardwareTypes::Ethernet` is code 1. -/
structure ArpHardwareType where
  code : Nat
deriving Repr, DecidableEq

/-- Source: `arp::ArpHardwareTypes::Ethernet`. -/
def ArpHardwareTypes.Ethernet : ArpHardwareType := ⟨1⟩

/-- Source: `DhcpDuration(time::Duration)`: seconds and nanoseconds. -/
structure DhcpDuration where
  secs : Nat
  nanos : Nat
deriving Repr, DecidableEq

/-- Source: `DhcpDuration::new`. -/
def DhcpDuration.new (s : Nat) (n : Nat) : DhcpDuration := ⟨s, n⟩

/-- Source: `DhcpBytes(Vec<u8>)`. -/
abbrev DhcpBytes := List Nat

/-- Source: `enum BootpOpcode`. -/
inductive BootpOpcode where
  | BootRequest
  | BootReply
deriving Repr, DecidableEq

/-- Source: `enum DhcpMessageType`. -/
inductive DhcpMessageType where
  | DhcpDiscover
  | DhcpOffer
  | DhcpRequest
  | DhcpDecline
  | DhcpAck
  | DhcpNak
  | DhcpRelease
  | DhcpInform
  | DhcpForceRenew
deriving Repr, DecidableEq

/-- Source: `enum DhcpForceRenewNonceAlgos`. -/
inductive DhcpForceRenewNonceAlgos where
  | HmacMd5
  | Other (code : Nat)
deriving Repr, DecidableEq

/-- Source: `DhcpForceRenewNonceCapable(Vec<DhcpForceRenewNonceAlgos>)`. -/
abbrev DhcpForceRenewNonceCapable := List DhcpForceRenewNonceAlgos

/-- Source: `enum DhcpOptionID`. -/
inductive DhcpOptionID where
  | SubnetMask
  | Router
  | DNSserver
  | HostName
  | DomainName
  | InterfaceMTU
  | BroadcastAddr
  | LeaseTime
  | ServerID
  | RenewalInterval
  | RebindingInterval
  | DomainSearch
  | MsgType
  | ClientIdentifier
  | RapidCommit
  | MaxMsgSize
  | VendorClassId
  | ForceRenewNonceCap
  | ParameterRequestList
  | OptionEnd
  | Pad
  | Other (code : Nat)
deriving Repr, DecidableEq

/-- Source: `DhcpOptionID::from(id: u8)` (named `fromCode` because `from` is a Lean
keyword). The numeric literals are the `DHCP_OPTION_*` constants of the
source: 1 subnet mask, 3 router, 6 DNS, 12 host name, 15 domain name,
26 MTU, 28 broadcast, 51 lease time, 53 message type, 54 server id,
55 parameter request list, 57 max message size, 58 renewal, 59 rebinding,
60 vendor class, 61 client identifier, 80 rapid commit, 119 domain search,
145 force renew nonce capable, 255 end, 0 pad. -/
def DhcpOptionID.fromCode (id : Nat) : DhcpOptionID :=
  match id with
  | 1 => .SubnetMask
  | 3 => .Router
  | 6 => .DNSserver
  | 12 => .HostName
  | 15 => .DomainName
  | 26 => .InterfaceMTU
  | 28 => .BroadcastAddr
  | 51 => .LeaseTime
  | 53 => .MsgType
  | 54 => .ServerID
  | 55 => .ParameterRequestList
  | 57 => .MaxMsgSize
  | 58 => .RenewalInterval
  | 59 => .RebindingInterval
  | 60 => .VendorClassId
  | 61 => .ClientIdentifier
  | 80 => .RapidCommit
  | 119 => .DomainSearch
  | 145 => .ForceRenewNonceCap
  | 255 => .OptionEnd
  | 0 => .Pad
  | o => .Other o

/-- Source: `DhcpOptionIDs(Vec<DhcpOptionID>)`. -/
abbrev DhcpOptionIDs := List DhcpOptionID

/-- Source: `struct DhcpOptionOther`. -/
structure DhcpOptionOther where
  option : DhcpBytes
  option_id : Nat
deriving Repr, DecidableEq

/-- Source: `Ipv4AddrList(Vec<Ipv4Addr>)`. -/
abbrev Ipv4AddrList := List Ipv4Addr

/-- Source: `enum DhcpOption`. A Rust `String` value is modelled by its UTF-8
byte sequence. -/
inductive DhcpOption where
  | MessageType (t : DhcpMessageType)
  | ClientIdentifier (b : DhcpBytes)
  | RapidCommit
  | MaxMsgSize (n : Nat)
  | VendorClassId (s : List Nat)
  | HostName (s : List Nat)
  | ForceRenewNonceCapable (c : DhcpForceRenewNonceCapable)
  | ParameterRequestList (p : DhcpOptionIDs)
  | SubNetMask (m : Nat)
  | Router (l : Ipv4AddrList)
  | DNSserver (l : Ipv4AddrList)
  | DomainName (s : List Nat)
  | InterfaceMTU (m : Nat)
  | BroadcastAddr (a : Ipv4Addr)
  | LeaseTime (d : DhcpDuration)
  | Other (o : DhcpOptionOther)
  | ServerID (a : Ipv4Addr)
  | RenewalPeriod (d : DhcpDuration)
  | RebindingPeriod (d : DhcpDuration)
  | DomainSearch (b : DhcpBytes)
  | Pad
  | End
deriving Repr, DecidableEq

/-- The option mapping: `HashMap<DhcpOptionID, DhcpOption>` modelled as an
association list with at most one entry per key; `insert` overwrites the
existing entry for the key, like `HashMap::insert`. -/
abbrev OptMap := List (DhcpOptionID × DhcpOption)

/-- Source: `HashMap::insert`: replace the entry for `k` if present, else add it. -/
def OptMap.insert : OptMap → DhcpOptionID → DhcpOption → OptMap
  | [], k, v => [(k, v)]
  | (k', v') :: rest, k, v =>
    if k' = k then (k, v) :: rest else (k', v') :: OptMap.insert rest k v

/-- Source: `HashMap::get`: the value stored under `k`, if any. -/
def OptMap.find : OptMap → DhcpOptionID → Option DhcpOption
  | [], _ => none
  | (k', v') :: rest, k => if k' = k then some v' else OptMap.find rest k

/-- Source: `verify_option_length(function)`: a length byte accepted by `function`. -/
def verify_option_length (f : Nat → Bool) : Parser Nat :=
  Nom.verify Nom.be_u8 f

/-- Source: `DhcpMessageType::parse`: length byte must equal 1; the value byte is
matched against 1–9, and the source's `_ => panic!("Unknown DHCP message
type")` arm aborts, modelled as `PErr.panic`. The panic lives in the
closure passed to `map` in the source; it is inlined here. -/
def DhcpMessageType.parse : Parser DhcpMessageType := fun buf =>
  match Nom.preceded (verify_option_length (fun x => x == 1)) Nom.be_u8 buf with
  | .error e => .error e
  | .ok (rest, x) =>
    match x with
    | 1 => .ok (rest, .DhcpDiscover)
    | 2 => .ok (rest, .DhcpOffer)
    | 3 => .ok (rest, .DhcpRequest)
    | 4 => .ok (rest, .DhcpDecline)
    | 5 => .ok (rest, .DhcpAck)
    | 6 => .ok (rest, .DhcpNak)
    | 7 => .ok (rest, .DhcpRelease)
    | 8 => .ok (rest, .DhcpInform)
    | 9 => .ok (rest, .DhcpForceRenew)
    | _ => .error .panic

/-- Source: `DhcpBytes::parse`: `length_data(verify_option_length(|x| x > 2))`. -/
def DhcpBytes.parse : Parser DhcpBytes :=
  Nom.map (Nom.length_data (verify_option_length (fun x => 2 < x)))
    (fun x => x)

/-- Source: `DhcpForceRenewNonceAlgos::parse`. -/
def DhcpForceRenewNonceAlgos.parse (byte : Nat) : DhcpForceRenewNonceAlgos :=
  match byte with
  | 1 => .HmacMd5
  | x => .Other x

/-- Source: `DhcpForceRenewNonceCapable::parse`. -/
def DhcpForceRenewNonceCapable.parse : Parser DhcpForceRenewNonceCapable :=
  Nom.map (Nom.length_data (verify_option_length (fun x => 0 < x)))
    (fun x => x.map DhcpForceRenewNonceAlgos.parse)

/-- Source: `DhcpOptionIDs::parse`. -/
def DhcpOptionIDs.parse : Parser DhcpOptionIDs :=
  Nom.map (Nom.length_data Nom.be_u8)
    (fun x => x.map DhcpOptionID.fromCode)

/-- Source: `take4`: four raw bytes (`ByteStr` in the source). -/
def take4 : Parser (List Nat) := Nom.map (Nom.take 4) (fun x => x)

/-- Source: `parse_ipv4`: four bytes; all-zero means "absent" (`None`). The
source indexes `x[0]..x[3]`, which always exist since `take4` yields
exactly four bytes; `getD` mirrors that indexing. -/
def parse_ipv4 : Parser (Option Ipv4Addr) := fun buf =>
  match take4 buf with
  | .error e => .error e
  | .ok (rest, x) =>
    .ok (rest, if x = [0, 0, 0, 0] then none
               else some (Ipv4Addr.new (x.getD 0 0) (x.getD 1 0) (x.getD 2 0) (x.getD 3 0)))

/-- The element step of `parse_ipv4_list`: the source folds `parse_ipv4`
and calls `addr.unwrap()` inside the fold closure, aborting on an
all-zero (absent) address; the abort is modelled as a `panic` outcome of
the element parser, which `fold_many0` propagates. -/
def parse_ipv4_unwrapped : Parser Ipv4Addr := fun buf =>
  match parse_ipv4 buf with
  | .error e => .error e
  | .ok (_, none) => .error .panic
  | .ok (rest, some a) => .ok (rest, a)

/-- Source: `parse_ipv4_list`: `fold_many0(parse_ipv4, Vec::new(), push unwrap)`. -/
def parse_ipv4_list : Parser (List Ipv4Addr) :=
  Nom.fold_many0 parse_ipv4_unwrapped [] (fun addrs addr => addrs ++ [addr])

/-- Source: `parse_ipv4_option_list`: length byte `>= 4` and a multiple of 4,
then the value span decoded as IPv4 addresses. -/
def parse_ipv4_option_list : Parser (List Ipv4Addr) :=
  Nom.mapParser
    (Nom.length_data (verify_option_length (fun x => 4 ≤ x && x % 4 == 0)))
    parse_ipv4_list

/-- One byte of a UTF-8 continuation (0x80–0xBF). -/
def utf8Cont (b : Nat) : Bool := 0x80 ≤ b && b ≤ 0xBF

/-- Validity of a byte sequence as UTF-8, the check performed by Rust's
`String::from_utf8` (rejecting overlong forms, surrogates, and code
points above U+10FFFF). -/
def utf8Valid : List Nat → Bool
  | [] => true
  | b :: rest =>
    if b ≤ 0x7F then utf8Valid rest
    else if 0xC2 ≤ b && b ≤ 0xDF then
      match rest with
      | c1 :: rest' => utf8Cont c1 && utf8Valid rest'
      | [] => false
    else if b == 0xE0 then
      match rest with
      | c1 :: c2 :: rest' =>
          (0xA0 ≤ c1 && c1 ≤ 0xBF) && utf8Cont c2 && utf8Valid rest'
      | _ => false
    else if (0xE1 ≤ b && b ≤ 0xEC) || b == 0xEE || b == 0xEF then
      match rest with
      | c1 :: c2 :: rest' => utf8Cont c1 && utf8Cont c2 && utf8Valid rest'
      | _ => false
    else if b == 0xED then
      match rest with
      | c1 :: c2 :: rest' =>
          (0x80 ≤ c1 && c1 ≤ 0x9F) && utf8Cont c2 && utf8Valid rest'
      | _ => false
    else if b == 0xF0 then
      match rest with
      | c1 :: c2 :: c3 :: rest' =>
          (0x90 ≤ c1 && c1 ≤ 0xBF) && utf8Cont c2 && utf8Cont c3 && utf8Valid rest'
      | _ => false
    else if 0xF1 ≤ b && b ≤ 0xF3 then
      match rest with
      | c1 :: c2 :: c3 :: rest' =>
          utf8Cont c1 && utf8Cont c2 && utf8Cont c3 && utf8Valid rest'
      | _ => false
    else if b == 0xF4 then
      match rest with
      | c1 :: c2 :: c3 :: rest' =>
          (0x80 ≤ c1 && c1 ≤ 0x8F) && utf8Cont c2 && utf8Cont c3 && utf8Valid rest'
      | _ => false
    else false

/-- Source: `parse_string`: a nonempty length-prefixed span whose bytes must be
valid UTF-8; the source's `String::from_utf8(..).unwrap()` aborts on
invalid UTF-8, modelled as `panic`. The string value is modelled by its
byte sequence. -/
def parse_string : Parser (List Nat) := fun buf =>
  match Nom.length_data (verify_option_length (fun x => 0 < x)) buf with
  | .error e => .error e
  | .ok (rest, x) =>
    if utf8Valid x then .ok (rest, x) else .error .panic

/-- Source: `DhcpOption::parse(option_id, buf)`: per-option value decoding,
dispatching on the resolved option id. `BroadcastAddr` and `ServerID`
call `x.unwrap()` on `parse_ipv4`'s optional result inside the `map`
closure; as with `parse_ipv4_list` this abort is modelled by
`parse_ipv4_unwrapped`. -/
def DhcpOption.parse (option_id : DhcpOptionID) : Parser DhcpOption :=
  match option_id with
  | .Router =>
      Nom.map parse_ipv4_option_list (fun x => DhcpOption.Router x)
  | .DNSserver =>
      Nom.map parse_ipv4_option_list (fun x => DhcpOption.DNSserver x)
  | .HostName =>
      Nom.map parse_string (fun x => DhcpOption.HostName x)
  | .DomainName =>
      Nom.map parse_string (fun x => DhcpOption.DomainName x)
  | .InterfaceMTU =>
      Nom.map (Nom.preceded (verify_option_length (fun x => x == 2)) Nom.be_u16)
        (fun x => DhcpOption.InterfaceMTU x)
  | .BroadcastAddr =>
      Nom.map (Nom.preceded (verify_option_length (fun x => x == 4)) parse_ipv4_unwrapped)
        (fun x => DhcpOption.BroadcastAddr x)
  | .LeaseTime =>
      Nom.map (Nom.preceded (verify_option_length (fun x => x == 4)) Nom.be_u32)
        (fun x => DhcpOption.LeaseTime (DhcpDuration.new x 0))
  | .MsgType =>
      Nom.map DhcpMessageType.parse (fun x => DhcpOption.MessageType x)
  | .OptionEnd => fun buf => .ok (buf, DhcpOption.End)
  | .ServerID =>
      Nom.map (Nom.preceded (verify_option_length (fun x => x == 4)) parse_ipv4_unwrapped)
        (fun x => DhcpOption.ServerID x)
  | .ParameterRequestList =>
      Nom.map DhcpOptionIDs.parse (fun x => DhcpOption.ParameterRequestList x)
  | .SubnetMask =>
      Nom.map (Nom.preceded (verify_option_length (fun x => x == 4)) Nom.be_u32)
        (fun x => DhcpOption.SubNetMask x)
  | .MaxMsgSize =>
      Nom.map (Nom.preceded (verify_option_length (fun x => x == 2))
                 (Nom.verify Nom.be_u16 (fun x => 576 ≤ x)))
        (fun x => DhcpOption.MaxMsgSize x)
  | .RenewalInterval =>
      Nom.map (Nom.preceded (verify_option_length (fun x => x == 4)) Nom.be_u32)
        (fun x => DhcpOption.RenewalPeriod (DhcpDuration.new x 0))
  | .RebindingInterval =>
      Nom.map (Nom.preceded (verify_option_length (fun x => x == 4)) Nom.be_u32)
        (fun x => DhcpOption.RebindingPeriod (DhcpDuration.new x 0))
  | .VendorClassId =>
      Nom.map parse_string (fun x => DhcpOption.VendorClassId x)
  | .ClientIdentifier =>
      Nom.map DhcpBytes.parse (fun x => DhcpOption.ClientIdentifier x)
  | .RapidCommit =>
      Nom.value DhcpOption.RapidCommit (verify_option_length (fun x => x == 0))
  | .ForceRenewNonceCap =>
      Nom.map DhcpForceRenewNonceCapable.parse
        (fun x => DhcpOption.ForceRenewNonceCapable x)
  | .DomainSearch =>
      Nom.map (Nom.length_data Nom.be_u8) (fun x => DhcpOption.DomainSearch x)
  | .Pad => fun buf => .ok (buf, DhcpOption.Pad)
  | .Other o =>
      Nom.map (Nom.length_data Nom.be_u8)
        (fun x => DhcpOption.Other ⟨x, o⟩)

/-- Source: `struct DhcpPacket`. -/
structure DhcpPacket where
  ciaddr : Option Ipv4Addr
  yiaddr : Option Ipv4Addr
  siaddr : Option Ipv4Addr
  giaddr : Option Ipv4Addr
  opcode : BootpOpcode
  hops : Nat
  hlen : Nat
  htype : ArpHardwareType
  xid : Nat
  secs : DhcpDuration
  broadcast : Bool
  chaddr : MacAddr
  options : OptMap
deriving Repr, DecidableEq

/-- Source: `BootpOpcode::parse`: one byte; 1 is a request, 2 a reply, and the
source's `panic!("Unknown opcode")` arm aborts on anything else. -/
def BootpOpcode.parse : Parser BootpOpcode := fun buf =>
  match Nom.be_u8 buf with
  | .error e => .error e
  | .ok (rest, 1) => .ok (rest, BootpOpcode.BootRequest)
  | .ok (rest, 2) => .ok (rest, BootpOpcode.BootReply)
  | .ok (_, _) => .error .panic

/-- Source: `parse_dhcp_hwarp`: `value(Ethernet, tag([1]))`. -/
def parse_dhcp_hwarp : Parser ArpHardwareType :=
  Nom.value ArpHardwareTypes.Ethernet (Nom.tag [1])

/-- Source: `parse_flags`: a big-endian 16-bit field; `0x8000` means broadcast,
`0x0000` unicast; the source's `panic!("unknown flags")` arm aborts on
any other pattern. -/
def parse_flags : Parser Bool := fun buf =>
  match Nom.be_u16 buf with
  | .error e => .error e
  | .ok (rest, x) =>
    match x with
    | 0x8000 => .ok (rest, true)
    | 0x0000 => .ok (rest, false)
    | _ => .error .panic

/-- Source: `new_macaddr`: the first six bytes of the span (the source indexes
`buf[0]..buf[5]`; callers always pass the result of `take(6)`). -/
def new_macaddr (buf : List Nat) : MacAddr :=
  ⟨buf.getD 0 0, buf.getD 1 0, buf.getD 2 0, buf.getD 3 0, buf.getD 4 0, buf.getD 5 0⟩

/-- Source: `parse_chaddr`: a 6-byte MAC address followed by 10 discarded bytes
(the rest of the 16-byte BOOTP `chaddr` region). -/
def parse_chaddr : Parser MacAddr :=
  Nom.terminated (Nom.map (Nom.take 6) new_macaddr) (Nom.take 10)

/-- Source: `parse_dhcp_option`: an option code byte, resolved through the
identifier registry, then the per-option value parse. -/
def parse_dhcp_option : Parser (DhcpOptionID × DhcpOption) := fun buf =>
  match Nom.be_u8 buf with
  | .error e => .error e
  | .ok (buf2, id) =>
    match DhcpOption.parse (DhcpOptionID.fromCode id) buf2 with
    | .error e => .error e
    | .ok (buf2', option) => .ok (buf2', (DhcpOptionID.fromCode id, option))

/-- The fold step of `parse_dhcp_options`: End and Pad are dropped, every
other option is inserted (overwriting a previous entry for the same id). -/
def dhcp_option_fold (options : OptMap) (option : DhcpOptionID × DhcpOption) : OptMap :=
  match option.1 with
  | .OptionEnd => options
  | .Pad => options
  | _ => OptMap.insert options option.1 option.2

/-- Source: `parse_dhcp_options`: `fold_many0(parse_dhcp_option, HashMap::new(), ..)`. -/
def parse_dhcp_options : Parser OptMap :=
  Nom.fold_many0 parse_dhcp_option [] dhcp_option_fold

/-- The option-stream fold resumed from an intermediate accumulator:
`parse_dhcp_options buf` is `parse_dhcp_options_from [] buf`. Used to
state how the fold threads its map through the stream. -/
def parse_dhcp_options_from (acc : OptMap) (buf : Input) : PResult OptMap :=
  Nom.fold_go parse_dhcp_option dhcp_option_fold (buf.length + 1) acc buf

/-- Source: `DhcpPacket::parse`: the source maps a 14-element `tuple` into the
packet structure; the tuple is the left-to-right sequencing written out
with `Nom.andThen`. -/
def DhcpPacket.parse : Parser DhcpPacket :=
  Nom.andThen BootpOpcode.parse fun opcode =>
  Nom.andThen parse_dhcp_hwarp fun htype =>
  Nom.andThen Nom.be_u8 fun hlen =>
  Nom.andThen Nom.be_u8 fun hops =>
  Nom.andThen Nom.be_u32 fun xid =>
  Nom.andThen Nom.be_u16 fun sec =>
  Nom.andThen parse_flags fun broadcast =>
  Nom.andThen parse_ipv4 fun ciaddr =>
  Nom.andThen parse_ipv4 fun yiaddr =>
  Nom.andThen parse_ipv4 fun siaddr =>
  Nom.andThen parse_ipv4 fun giaddr =>
  Nom.andThen (Nom.terminated parse_chaddr (Nom.take 192)) fun chaddr =>
  Nom.andThen (Nom.verify (Nom.take 4)
    (fun x => x.length == 4 && x == [0x63, 0x82, 0x53, 0x63])) fun _ =>
  Nom.andThen parse_dhcp_options fun options =>
  fun buf =>
    .ok (buf,
      { ciaddr, yiaddr, siaddr, giaddr, opcode,
        hops, hlen, htype, xid,
        secs := DhcpDuration.new sec 0,
        broadcast, chaddr, options })

/-- The spec's reading of a router/DNS option value: "the ordered list of
len/4 IPv4 addresses read 4 bytes at a time from the value". Used to
compare `parse_ipv4_option_list`'s output against the spec's words. -/
def specIpv4List : List Nat → List Ipv4Addr
  | a :: b :: c :: d :: rest => Ipv4Addr.new a b c d :: specIpv4List rest
  | _ => []

/-- No aligned 4-byte group of the value is all-zero (the case on which
the source's `addr.unwrap()` aborts). -/
def noZeroChunk : List Nat → Bool
  | a :: b :: c :: d :: rest =>
      !(a == 0 && b == 0 && c == 0 && d == 0) && noZeroChunk rest
  | _ => true

/-- A well-formed 240-byte fixed header (BootRequest, Ethernet, hlen 6,
xid 1, all-zero addresses, MAC AA:BB:CC:DD:EE:FF, zero reserved regions,
correct magic cookie) used as a concrete test input. -/
def goodHeader240 : List Nat :=
  [1, 1, 6, 0] ++ [0, 0, 0, 1] ++ [0, 0] ++ [0, 0] ++
  [0, 0, 0, 0] ++ [0, 0, 0, 0] ++ [0, 0, 0, 0] ++ [0, 0, 0, 0] ++
  [0xAA, 0xBB, 0xCC, 0xDD, 0xEE, 0xFF] ++ List.replicate 10 0 ++
  List.replicate 192 0 ++ [0x63, 0x82, 0x53, 0x63]

/-- The packet value decoded from `goodHeader240` (with any option
stream the fold accepts appended; the options field varies). -/
def goodPacket (opts : OptMap) : DhcpPacket :=
  { ciaddr := none, yiaddr := none, siaddr := none, giaddr := none,
    opcode := .BootRequest, hops := 0, hlen := 6,
    htype := ArpHardwareTypes.Ethernet, xid := 1,
    secs := DhcpDuration.new 0 0, broadcast := false,
    chaddr := ⟨0xAA, 0xBB, 0xCC, 0xDD, 0xEE, 0xFF⟩, options := opts }

/-- A parser that never returns more input than it was given: on success
the remaining input is no longer than the original. Every parser in the
source has this property (nom parsers only ever advance the cursor). -/
def Mono (p : Parser α) : Prop :=
  ∀ buf rest a, p buf = .ok (rest, a) → rest.length ≤ buf.length

/-- Strict consumption, the form used by the fold lemmas. -/
def Strict (p : Parser α) : Prop :=
  ∀ buf rest a, p buf = .ok (rest, a) → rest.length < buf.length

/-- A concrete 34-byte header prefix (opcode 1, hardware type 1, hlen 6,
hops 0, xid 1, secs 0, flags 0, four all-zero addresses, MAC
AA:BB:CC:DD:EE:FF) used to witness the reserved-region independence. -/
def pre9 : List Nat :=
  [1, 1, 6, 0, 0, 0, 0, 1, 0, 0, 0, 0,
   0, 0, 0, 0, 0, 0, 0, 0, 0, 0, 0, 0, 0, 0, 0, 0,
   0xAA, 0xBB, 0xCC, 0xDD, 0xEE, 0xFF]

/-! ## Theorems -/

/-- Claim C1 (code_bug): the top-level decode does NOT turn every
malformed input into an error value — the source aborts the process on
several attacker-controlled byte patterns. Evaluating the code at the
failing inputs: an unknown opcode byte (3), a flags field `0xFFFF`, a
message-type option byte 0, and a non-UTF-8 hostname payload `0xFF` all
reach the source's `panic!`/`unwrap` arms, modelled as `PErr.panic`. -/
theorem dhcp_c1 :
    DhcpPacket.parse [3] = .error .panic ∧
    DhcpPacket.parse [1, 1, 6, 0, 0, 0, 0, 1, 0, 0, 0xFF, 0xFF] = .error .panic ∧
    DhcpPacket.parse (goodHeader240 ++ [53, 1, 0]) = .error .panic ∧
    parse_string [1, 0xFF] = .error .panic := by
  refine ⟨rfl, rfl, rfl, rfl⟩

/-- Claim C4 (code_bug): the message-type decoder does require `len == 1`
(length 2 is a recoverable error) and maps value bytes 1–9 to the nine
message kinds, but a value byte outside 1–9 hits the source's
`panic!("Unknown DHCP message type")` arm — an abort, not an
`InvalidMessageType` error value. -/
theorem dhcp_c4 :
    DhcpMessageType.parse [1, 1] = .ok ([], .DhcpDiscover) ∧
    DhcpMessageType.parse [1, 2] = .ok ([], .DhcpOffer) ∧
    DhcpMessageType.parse [1, 3] = .ok ([], .DhcpRequest) ∧
    DhcpMessageType.parse [1, 4] = .ok ([], .DhcpDecline) ∧
    DhcpMessageType.parse [1, 5] = .ok ([], .DhcpAck) ∧
    DhcpMessageType.parse [1, 6] = .ok ([], .DhcpNak) ∧
    DhcpMessageType.parse [1, 7] = .ok ([], .DhcpRelease) ∧
    DhcpMessageType.parse [1, 8] = .ok ([], .DhcpInform) ∧
    DhcpMessageType.parse [1, 9] = .ok ([], .DhcpForceRenew) ∧
    DhcpMessageType.parse [2, 5] = .error .fail ∧
    DhcpMessageType.parse [1, 0] = .error .panic ∧
    DhcpMessageType.parse [1, 10] = .error .panic := by
  refine ⟨rfl, rfl, rfl, rfl, rfl, rfl, rfl, rfl, rfl, rfl, rfl, rfl⟩

/-- Claim C2, counterexample: a packet whose option stream consists of a
single malformed option (subnet mask, code 1, with length byte 3 instead
of 4) still decodes to a `Packet`: the option fold swallows the decode
error, stops, and the packet decode succeeds with an empty mapping —
contradicting "no Packet value is produced from a stream containing a
malformed option". -/
theorem dhcp_c2_cex :
    DhcpOption.parse .SubnetMask [3, 0, 0, 0] = .error .fail ∧
    DhcpPacket.parse (goodHeader240 ++ [1, 3, 0, 0, 0]) =
      .ok ([1, 3, 0, 0, 0], goodPacket []) := by
  refine ⟨rfl, rfl⟩

/-- Claim C3, counterexample: option-stream decoding does not stop at an
End code. In `[255, 99, 2, 7, 7]` the bytes after End are decoded as a
further option and land in the mapping (the claim says the mapping is
exactly that of the options before End, i.e. empty); in `[255, 53, 1, 0]`
the trailing bytes are examined and abort the decode (the claim says
arbitrary trailing bytes still yield a successful decode). -/
theorem dhcp_c3_cex :
    parse_dhcp_options [255, 99, 2, 7, 7] =
      .ok ([], [(.Other 99, .Other ⟨[7, 7], 99⟩)]) ∧
    parse_dhcp_options [255, 53, 1, 0] = .error .panic := by
  refine ⟨rfl, rfl⟩

/-- Claim C6, counterexample: a router-list option of (valid) length 4
whose value is the all-zero group `00 00 00 00` does not decode to the
one-element list `[0.0.0.0]` as the claim's "for every value of such a
length" requires — the source's `addr.unwrap()` aborts on the absent
address. -/
theorem dhcp_c6_cex :
    parse_ipv4_option_list [4, 0, 0, 0, 0] = .error .panic := rfl

/-- Claim C3, amended: option-stream decoding does not stop at an End
code; an End code is consumed, produces no mapping entry, and decoding
continues with the bytes after it exactly as if the End byte were absent
(so trailing bytes after End are examined as further options and their
entries and errors take effect). -/
theorem dhcp_c3 (rest : Input) :
    parse_dhcp_options (255 :: rest) = parse_dhcp_options rest := by
  have h : parse_dhcp_option (255 :: rest) = .ok (rest, (.OptionEnd, .End)) := rfl
  simp only [parse_dhcp_options, Nom.fold_many0, List.length_cons]
  rw [Nom.fold_go, h]
  simp only [dhcp_option_fold]
  rw [if_neg (Ne.symm (List.cons_ne_self 255 rest))]

/-- Claim C10: decoding a Rapid Commit option succeeds exactly when its
length byte is 0; it consumes only that byte and yields the data-less
`RapidCommit` value, and any nonzero length byte (or a missing one) is a
recoverable decode error. -/
theorem dhcp_c10 :
    (∀ (b : Nat) (rest : Input),
      DhcpOption.parse .RapidCommit (b :: rest) =
        if b = 0 then .ok (rest, .RapidCommit) else .error .fail) ∧
    DhcpOption.parse .RapidCommit [] = .error .fail := by
  refine ⟨fun b rest => ?_, rfl⟩
  by_cases h : b = 0 <;>
    simp [DhcpOption.parse, Nom.value, Nom.map, verify_option_length,
          Nom.verify, Nom.be_u8, h]

/-- Claim C8: the maximum-message-size option requires length byte 2 and
a big-endian 16-bit value of at least 576; smaller values are decode
errors, and in particular value 575 fails while 576 and 1500 decode to
themselves. -/
theorem dhcp_c8 :
    (∀ (len : Nat) (rest : Input),
      DhcpOption.parse .MaxMsgSize (len :: rest) =
        if len = 2 then
          match rest with
          | b1 :: b0 :: r =>
              if 576 ≤ b1 * 256 + b0 then .ok (r, .MaxMsgSize (b1 * 256 + b0))
              else .error .fail
          | _ => .error .fail
        else .error .fail) ∧
    DhcpOption.parse .MaxMsgSize [] = .error .fail ∧
    DhcpOption.parse .MaxMsgSize [2, 2, 63] = .error .fail ∧
    DhcpOption.parse .MaxMsgSize [2, 2, 64] = .ok ([], .MaxMsgSize 576) ∧
    DhcpOption.parse .MaxMsgSize [2, 5, 220] = .ok ([], .MaxMsgSize 1500) := by
  refine ⟨fun len rest => ?_, rfl, rfl, rfl, rfl⟩
  by_cases h : len = 2
  · subst h
    rcases rest with _ | ⟨b1, _ | ⟨b0, r⟩⟩
    · simp [DhcpOption.parse, Nom.map, Nom.preceded, Nom.andThen,
            verify_option_length, Nom.verify, Nom.be_u8, Nom.be_u16]
    · simp [DhcpOption.parse, Nom.map, Nom.preceded, Nom.andThen,
            verify_option_length, Nom.verify, Nom.be_u8, Nom.be_u16]
    · by_cases h2 : 576 ≤ b1 * 256 + b0 <;>
        simp [DhcpOption.parse, Nom.map, Nom.preceded, Nom.andThen,
              verify_option_length, Nom.verify, Nom.be_u8, Nom.be_u16, h2]
  · simp [DhcpOption.parse, Nom.map, Nom.preceded, Nom.andThen,
          verify_option_length, Nom.verify, Nom.be_u8, h]

lemma mono_be_u8 : Mono Nom.be_u8 := by
  intro buf rest a h
  cases buf with
  | nil => simp [Nom.be_u8] at h
  | cons b t =>
    simp only [Nom.be_u8, Except.ok.injEq, Prod.mk.injEq] at h
    obtain ⟨rfl, rfl⟩ := h
    simp

lemma mono_be_u16 : Mono Nom.be_u16 := by
  intro buf rest a h
  match buf with
  | [] => simp [Nom.be_u16] at h
  | [b] => simp [Nom.be_u16] at h
  | b1 :: b0 :: t =>
    simp only [Nom.be_u16, Except.ok.injEq, Prod.mk.injEq] at h
    obtain ⟨rfl, rfl⟩ := h
    simp
    omega

lemma mono_be_u32 : Mono Nom.be_u32 := by
  intro buf rest a h
  match buf with
  | [] => simp [Nom.be_u32] at h
  | [_] => simp [Nom.be_u32] at h
  | [_, _] => simp [Nom.be_u32] at h
  | [_, _, _] => simp [Nom.be_u32] at h
  | b3 :: b2 :: b1 :: b0 :: t =>
    simp only [Nom.be_u32, Except.ok.injEq, Prod.mk.injEq] at h
    obtain ⟨rfl, rfl⟩ := h
    simp
    omega

lemma mono_take (n : Nat) : Mono (Nom.take n) := by
  intro buf rest a h
  simp only [Nom.take] at h
  split at h
  · simp only [Except.ok.injEq, Prod.mk.injEq] at h
    obtain ⟨rfl, rfl⟩ := h
    simp
  · simp at h

lemma mono_tag (t : List Nat) : Mono (Nom.tag t) := by
  intro buf rest a h
  simp only [Nom.tag] at h
  split at h
  · simp only [Except.ok.injEq, Prod.mk.injEq] at h
    obtain ⟨rfl, rfl⟩ := h
    simp
  · simp at h

lemma mono_map {p : Parser α} (f : α → β) (hp : Mono p) : Mono (Nom.map p f) := by
  intro buf rest b h
  simp only [Nom.map] at h
  split at h
  · simp at h
  · rename_i rest' a heq
    simp only [Except.ok.injEq, Prod.mk.injEq] at h
    obtain ⟨rfl, rfl⟩ := h
    exact hp _ _ _ heq

lemma mono_value {p : Parser α} (v : β) (hp : Mono p) : Mono (Nom.value v p) :=
  mono_map _ hp

lemma mono_verify {p : Parser α} (cond : α → Bool) (hp : Mono p) :
    Mono (Nom.verify p cond) := by
  intro buf rest a h
  simp only [Nom.verify] at h
  split at h
  · simp at h
  · rename_i rest' a' heq
    split at h
    · simp only [Except.ok.injEq, Prod.mk.injEq] at h
      obtain ⟨rfl, rfl⟩ := h
      exact hp _ _ _ heq
    · simp at h

lemma mono_andThen {p : Parser α} {f : α → Parser β}
    (hp : Mono p) (hf : ∀ a, Mono (f a)) : Mono (Nom.andThen p f) := by
  intro buf rest b h
  simp only [Nom.andThen] at h
  split at h
  · simp at h
  · rename_i rest' a heq
    exact le_trans (hf a _ _ _ h) (hp _ _ _ heq)

lemma mono_preceded {p : Parser α} {q : Parser β}
    (hp : Mono p) (hq : Mono q) : Mono (Nom.preceded p q) :=
  mono_andThen hp (fun _ => hq)

lemma mono_terminated {p : Parser α} {q : Parser β}
    (hp : Mono p) (hq : Mono q) : Mono (Nom.terminated p q) :=
  mono_andThen hp (fun a => mono_map (fun _ => a) hq)

lemma mono_length_data {p : Parser Nat} (hp : Mono p) :
    Mono (Nom.length_data p) :=
  mono_andThen hp (fun n => mono_take n)

lemma mono_mapParser {outer : Parser (List Nat)} {inner : Parser α}
    (ho : Mono outer) : Mono (Nom.mapParser outer inner) := by
  intro buf rest a h
  simp only [Nom.mapParser] at h
  split at h
  · simp at h
  · rename_i rest' data heq
    split at h
    · simp at h
    · simp only [Except.ok.injEq, Prod.mk.injEq] at h
      obtain ⟨rfl, rfl⟩ := h
      exact ho _ _ _ heq

lemma mono_verify_option_length (f : Nat → Bool) : Mono (verify_option_length f) :=
  mono_verify f mono_be_u8

lemma mono_parse_ipv4 : Mono parse_ipv4 := by
  intro buf rest a h
  simp only [parse_ipv4] at h
  split at h
  · simp at h
  · rename_i rest' x heq
    simp only [Except.ok.injEq, Prod.mk.injEq] at h
    obtain ⟨rfl, rfl⟩ := h
    exact mono_map _ (mono_take 4) _ _ _ heq

lemma mono_parse_ipv4_unwrapped : Mono parse_ipv4_unwrapped := by
  intro buf rest a h
  simp only [parse_ipv4_unwrapped] at h
  split at h
  · simp at h
  · simp at h
  · rename_i rest' a' heq
    simp only [Except.ok.injEq, Prod.mk.injEq] at h
    obtain ⟨rfl, rfl⟩ := h
    exact mono_parse_ipv4 _ _ _ heq

lemma mono_parse_string : Mono parse_string := by
  intro buf rest a h
  simp only [parse_string] at h
  split at h
  · simp at h
  · rename_i rest' x heq
    split at h
    · simp only [Except.ok.injEq, Prod.mk.injEq] at h
      obtain ⟨rfl, rfl⟩ := h
      exact mono_length_data (mono_verify_option_length _) _ _ _ heq
    · simp at h

lemma mono_parse_ipv4_option_list : Mono parse_ipv4_option_list :=
  mono_mapParser (mono_length_data (mono_verify_option_length _))

lemma mono_DhcpMessageType_parse : Mono DhcpMessageType.parse := by
  intro buf rest a h
  simp only [DhcpMessageType.parse] at h
  split at h
  · simp at h
  · rename_i rest' x heq
    have hr : rest = rest' := by
      split at h <;> simp_all
    subst hr
    exact mono_preceded (mono_verify_option_length _) mono_be_u8 _ _ _ heq

lemma mono_DhcpOption_parse (id : DhcpOptionID) : Mono (DhcpOption.parse id) := by
  cases id with
  | Router => exact mono_map _ mono_parse_ipv4_option_list
  | DNSserver => exact mono_map _ mono_parse_ipv4_option_list
  | HostName => exact mono_map _ mono_parse_string
  | DomainName => exact mono_map _ mono_parse_string
  | VendorClassId => exact mono_map _ mono_parse_string
  | InterfaceMTU =>
      exact mono_map _ (mono_preceded (mono_verify_option_length _) mono_be_u16)
  | BroadcastAddr =>
      exact mono_map _ (mono_preceded (mono_verify_option_length _) mono_parse_ipv4_unwrapped)
  | ServerID =>
      exact mono_map _ (mono_preceded (mono_verify_option_length _) mono_parse_ipv4_unwrapped)
  | LeaseTime =>
      exact mono_map _ (mono_preceded (mono_verify_option_length _) mono_be_u32)
  | SubnetMask =>
      exact mono_map _ (mono_preceded (mono_verify_option_length _) mono_be_u32)
  | RenewalInterval =>
      exact mono_map _ (mono_preceded (mono_verify_option_length _) mono_be_u32)
  | RebindingInterval =>
      exact mono_map _ (mono_preceded (mono_verify_option_length _) mono_be_u32)
  | MaxMsgSize =>
      exact mono_map _ (mono_preceded (mono_verify_option_length _) (mono_verify _ mono_be_u16))
  | MsgType => exact mono_map _ mono_DhcpMessageType_parse
  | ParameterRequestList => exact mono_map _ (mono_map _ (mono_length_data mono_be_u8))
  | DomainSearch => exact mono_map _ (mono_length_data mono_be_u8)
  | Other o => exact mono_map _ (mono_length_data mono_be_u8)
  | ClientIdentifier => exact mono_map _ (mono_map _ (mono_length_data (mono_verify_option_length _)))
  | RapidCommit => exact mono_value _ (mono_verify_option_length _)
  | ForceRenewNonceCap => exact mono_map _ (mono_map _ (mono_length_data (mono_verify_option_length _)))
  | OptionEnd =>
      intro buf rest a h
      simp only [DhcpOption.parse, Except.ok.injEq, Prod.mk.injEq] at h
      obtain ⟨rfl, rfl⟩ := h
      exact le_refl _
  | Pad =>
      intro buf rest a h
      simp only [DhcpOption.parse, Except.ok.injEq, Prod.mk.injEq] at h
      obtain ⟨rfl, rfl⟩ := h
      exact le_refl _

lemma be_u8_ok {buf rest : Input} {v : Nat} (h : Nom.be_u8 buf = .ok (rest, v)) :
    buf = v :: rest := by
  cases buf with
  | nil => simp [Nom.be_u8] at h
  | cons b t =>
    simp only [Nom.be_u8, Except.ok.injEq, Prod.mk.injEq] at h
    obtain ⟨rfl, rfl⟩ := h
    rfl

lemma parse_dhcp_option_strict {buf rest : Input} {x : DhcpOptionID × DhcpOption}
    (h : parse_dhcp_option buf = .ok (rest, x)) : rest.length < buf.length := by
  simp only [parse_dhcp_option] at h
  split at h
  · simp at h
  · rename_i buf2 id heq
    split at h
    · simp at h
    · rename_i buf2' option heq2
      simp only [Except.ok.injEq, Prod.mk.injEq] at h
      obtain ⟨rfl, rfl⟩ := h
      have h1 := mono_DhcpOption_parse _ _ _ _ heq2
      have h2 := be_u8_ok heq
      subst h2
      simp only [List.length_cons]
      omega

lemma strict_parse_dhcp_option : Strict parse_dhcp_option :=
  fun _ _ _ h => parse_dhcp_option_strict h

/-- For a strictly-consuming embedded parser the fold's result does not
depend on the fuel, as long as the fuel exceeds the input length. -/
lemma fold_go_fuel {p : Parser α} {g : β → α → β} (hs : Strict p) :
    ∀ (f1 f2 : Nat) (acc : β) (buf : Input), buf.length < f1 → buf.length < f2 →
      Nom.fold_go p g f1 acc buf = Nom.fold_go p g f2 acc buf := by
  intro f1
  induction f1 with
  | zero => intro f2 acc buf h1 _; omega
  | succ n ih =>
    intro f2 acc buf h1 h2
    cases f2 with
    | zero => omega
    | succ m =>
      cases hp : p buf with
      | error e => cases e <;> simp only [Nom.fold_go, hp]
      | ok x =>
        obtain ⟨buf', a⟩ := x
        have hlt : buf'.length < buf.length := hs _ _ _ hp
        have hne : ¬ (buf' = buf) := fun hh => by simp [hh] at hlt
        simp only [Nom.fold_go, hp]
        rw [if_neg hne, if_neg hne]
        exact ih m (g acc a) buf' (by omega) (by omega)

/-- With a strictly-consuming embedded parser the fold never returns
nom's recoverable error: it either succeeds (stopping at the first
failing element) or propagates a panic. -/
lemma fold_go_ne_fail {p : Parser α} {g : β → α → β} (hs : Strict p) :
    ∀ (fuel : Nat) (acc : β) (buf : Input), buf.length < fuel →
      Nom.fold_go p g fuel acc buf ≠ .error .fail := by
  intro fuel
  induction fuel with
  | zero => intro acc buf h; omega
  | succ n ih =>
    intro acc buf h
    cases hp : p buf with
    | error e => cases e <;> simp [Nom.fold_go, hp]
    | ok x =>
      obtain ⟨buf', a⟩ := x
      have hlt : buf'.length < buf.length := hs _ _ _ hp
      have hne : ¬ (buf' = buf) := fun hh => by simp [hh] at hlt
      simp only [Nom.fold_go, hp]
      rw [if_neg hne]
      exact ih (g acc a) buf' (by omega)

/-- Unfolding the resumed option fold across one successfully decoded
option: the fold continues on the rest of the stream with the option
folded into the accumulator. -/
lemma parse_dhcp_options_from_step {buf buf' : Input} {x : DhcpOptionID × DhcpOption}
    (acc : OptMap) (h : parse_dhcp_option buf = .ok (buf', x)) :
    parse_dhcp_options_from acc buf =
      parse_dhcp_options_from (dhcp_option_fold acc x) buf' := by
  have hlt : buf'.length < buf.length := parse_dhcp_option_strict h
  have hne : ¬ (buf' = buf) := fun hh => by simp [hh] at hlt
  simp only [parse_dhcp_options_from, Nom.fold_go, h]
  rw [if_neg hne]
  exact fold_go_fuel strict_parse_dhcp_option buf.length (buf'.length + 1)
    (dhcp_option_fold acc x) buf' (by omega) (by omega)

/-- The resumed option fold stops, without error, at the first option
that does not decode; the undecodable bytes are left unconsumed. -/
lemma parse_dhcp_options_from_fail {buf : Input} (acc : OptMap)
    (h : parse_dhcp_option buf = .error .fail) :
    parse_dhcp_options_from acc buf = .ok (buf, acc) := by
  simp only [parse_dhcp_options_from, Nom.fold_go, h]

lemma parse_dhcp_options_eq_from (buf : Input) :
    parse_dhcp_options buf = parse_dhcp_options_from [] buf := rfl

lemma OptMap.find_insert_self (m : OptMap) (k : DhcpOptionID) (v : DhcpOption) :
    OptMap.find (OptMap.insert m k v) k = some v := by
  induction m with
  | nil => simp [OptMap.insert, OptMap.find]
  | cons kv rest ih =>
    obtain ⟨k', v'⟩ := kv
    by_cases h : k' = k <;> simp [OptMap.insert, OptMap.find, h, ih]

lemma OptMap.find_insert_ne (m : OptMap) (k k' : DhcpOptionID) (v : DhcpOption)
    (h : k' ≠ k) : OptMap.find (OptMap.insert m k v) k' = OptMap.find m k' := by
  induction m with
  | nil =>
    simp only [OptMap.insert, OptMap.find]
    rw [if_neg (Ne.symm h)]
  | cons kv rest ih =>
    obtain ⟨k0, v0⟩ := kv
    by_cases h0 : k0 = k
    · subst h0
      simp only [OptMap.insert, if_pos rfl, OptMap.find]
      rw [if_neg (Ne.symm h), if_neg (Ne.symm h)]
    · simp only [OptMap.insert, if_neg h0, OptMap.find]
      by_cases h1 : k0 = k'
      · rw [if_pos h1, if_pos h1]
      · rw [if_neg h1, if_neg h1]
        exact ih

lemma dhcp_option_fold_pad_end (acc : OptMap) (x : DhcpOptionID × DhcpOption)
    (hacc : OptMap.find acc .Pad = none ∧ OptMap.find acc .OptionEnd = none) :
    OptMap.find (dhcp_option_fold acc x) .Pad = none ∧
      OptMap.find (dhcp_option_fold acc x) .OptionEnd = none := by
  obtain ⟨id, v⟩ := x
  cases id <;> simp only [dhcp_option_fold] <;>
    first
      | exact hacc
      | exact ⟨by rw [OptMap.find_insert_ne _ _ _ _ (by simp)]; exact hacc.1,
               by rw [OptMap.find_insert_ne _ _ _ _ (by simp)]; exact hacc.2⟩

lemma fold_go_pad_end :
    ∀ (fuel : Nat) (acc : OptMap) (buf rest : Input) (m : OptMap),
      OptMap.find acc .Pad = none ∧ OptMap.find acc .OptionEnd = none →
      Nom.fold_go parse_dhcp_option dhcp_option_fold fuel acc buf = .ok (rest, m) →
      OptMap.find m .Pad = none ∧ OptMap.find m .OptionEnd = none := by
  intro fuel
  induction fuel with
  | zero => intro acc buf rest m hacc h; simp [Nom.fold_go] at h
  | succ n ih =>
    intro acc buf rest m hacc h
    cases hp : parse_dhcp_option buf with
    | error e =>
      cases e
      · simp only [Nom.fold_go, hp, Except.ok.injEq, Prod.mk.injEq] at h
        obtain ⟨rfl, rfl⟩ := h
        exact hacc
      · simp [Nom.fold_go, hp] at h
    | ok x =>
      obtain ⟨buf', a⟩ := x
      have hlt : buf'.length < buf.length := parse_dhcp_option_strict hp
      have hne : ¬ (buf' = buf) := fun hh => by simp [hh] at hlt
      simp only [Nom.fold_go, hp] at h
      rw [if_neg hne] at h
      exact ih _ _ _ _ (dhcp_option_fold_pad_end _ _ hacc) h

/-- Claim C2, amended: one malformed option does not invalidate the
packet. The option fold swallows a value-decode failure: decoding stops
at the first option that fails to decode, leaves its bytes unconsumed,
and succeeds with the options accumulated before it, so the option-stream
decoder never surfaces a recoverable decode error to the packet decode
(only a panic/abort escapes). -/
theorem dhcp_c2 :
    (∀ buf : Input, parse_dhcp_option buf = .error .fail →
      parse_dhcp_options buf = .ok (buf, [])) ∧
    (∀ buf : Input, parse_dhcp_options buf ≠ .error .fail) := by
  constructor
  · intro buf h
    rw [parse_dhcp_options_eq_from]
    exact parse_dhcp_options_from_fail [] h
  · intro buf
    exact fold_go_ne_fail strict_parse_dhcp_option _ _ _ (by omega)

/-- Witness for `dhcp_c2` at a concrete malformed option stream (subnet
mask option with wrong length byte 3). -/
theorem dhcp_c2_witness :
    parse_dhcp_options [1, 3, 0, 0, 0] = .ok ([1, 3, 0, 0, 0], []) ∧
    parse_dhcp_options [255] ≠ .error .fail :=
  ⟨dhcp_c2.1 [1, 3, 0, 0, 0] rfl, dhcp_c2.2 [255]⟩

/-- Claim C7: the decoded option mapping never contains an entry keyed
Pad or End (both are consumed without creating entries); and the fold
threads the mapping through the stream one option at a time, inserting
with overwrite semantics, so with a duplicated option code the last
occurrence's value is the one in the final mapping. -/
theorem dhcp_c7 :
    (∀ (buf rest : Input) (m : OptMap), parse_dhcp_options buf = .ok (rest, m) →
      OptMap.find m .Pad = none ∧ OptMap.find m .OptionEnd = none) ∧
    (∀ (acc : OptMap) (buf buf' : Input) (x : DhcpOptionID × DhcpOption),
      parse_dhcp_option buf = .ok (buf', x) →
      parse_dhcp_options_from acc buf =
        parse_dhcp_options_from (dhcp_option_fold acc x) buf') ∧
    (∀ (m : OptMap) (k : DhcpOptionID) (v : DhcpOption),
      OptMap.find (OptMap.insert m k v) k = some v) := by
  refine ⟨?_, ?_, ?_⟩
  · intro buf rest m h
    exact fold_go_pad_end (buf.length + 1) [] buf rest m ⟨rfl, rfl⟩ h
  · intro acc buf buf' x h
    exact parse_dhcp_options_from_step acc h
  · exact OptMap.find_insert_self

/-- Witness for `dhcp_c7`: a Pad option stream, one fold step on it, and
an overwriting insert, all at concrete values. -/
theorem dhcp_c7_witness :
    (OptMap.find [] .Pad = none ∧ OptMap.find [] .OptionEnd = none) ∧
    parse_dhcp_options_from [] [0] =
      parse_dhcp_options_from (dhcp_option_fold [] (.Pad, .Pad)) [] ∧
    OptMap.find
      (OptMap.insert [(.HostName, .HostName [65])] .HostName (.HostName [66]))
      .HostName = some (.HostName [66]) :=
  ⟨dhcp_c7.1 [0] [] [] rfl,
   dhcp_c7.2.1 [] [0] [] (.Pad, .Pad) rfl,
   dhcp_c7.2.2 [(.HostName, .HostName [65])] .HostName (.HostName [66])⟩

lemma andThen_ok {p : Parser α} {f : α → Parser β} {buf : Input} {y : Input × β}
    (h : Nom.andThen p f buf = .ok y) :
    ∃ r a, p buf = .ok (r, a) ∧ f a r = .ok y := by
  simp only [Nom.andThen] at h
  split at h
  · simp at h
  · rename_i r a heq
    exact ⟨r, a, heq, h⟩

lemma take_ok {n : Nat} {buf rest x : Input} (h : Nom.take n buf = .ok (rest, x)) :
    rest = buf.drop n ∧ x = buf.take n ∧ n ≤ buf.length := by
  simp only [Nom.take] at h
  split at h
  · simp only [Except.ok.injEq, Prod.mk.injEq] at h
    obtain ⟨rfl, rfl⟩ := h
    exact ⟨rfl, rfl, by assumption⟩
  · simp at h

lemma be_u8_ok_drop {buf rest : Input} {v : Nat}
    (h : Nom.be_u8 buf = .ok (rest, v)) : rest = buf.drop 1 := by
  rw [be_u8_ok h]
  rfl

lemma tag_ok {t buf rest x : List Nat}
    (h : Nom.tag t buf = .ok (rest, x)) : rest = buf.drop t.length := by
  simp only [Nom.tag] at h
  split at h
  · simp only [Except.ok.injEq, Prod.mk.injEq] at h
    obtain ⟨rfl, rfl⟩ := h
    rfl
  · simp at h

lemma be_u16_ok_drop {buf rest : Input} {v : Nat}
    (h : Nom.be_u16 buf = .ok (rest, v)) : rest = buf.drop 2 := by
  match buf with
  | [] => simp [Nom.be_u16] at h
  | [_] => simp [Nom.be_u16] at h
  | b1 :: b0 :: t =>
    simp only [Nom.be_u16, Except.ok.injEq, Prod.mk.injEq] at h
    obtain ⟨rfl, rfl⟩ := h
    rfl

lemma be_u32_ok_drop {buf rest : Input} {v : Nat}
    (h : Nom.be_u32 buf = .ok (rest, v)) : rest = buf.drop 4 := by
  match buf with
  | [] => simp [Nom.be_u32] at h
  | [_] => simp [Nom.be_u32] at h
  | [_, _] => simp [Nom.be_u32] at h
  | [_, _, _] => simp [Nom.be_u32] at h
  | b3 :: b2 :: b1 :: b0 :: t =>
    simp only [Nom.be_u32, Except.ok.injEq, Prod.mk.injEq] at h
    obtain ⟨rfl, rfl⟩ := h
    rfl

lemma opcode_ok_drop {buf rest : Input} {v : BootpOpcode}
    (h : BootpOpcode.parse buf = .ok (rest, v)) : rest = buf.drop 1 := by
  simp only [BootpOpcode.parse] at h
  split at h
  · simp at h
  · rename_i heq
    simp only [Except.ok.injEq, Prod.mk.injEq] at h
    obtain ⟨rfl, rfl⟩ := h
    exact be_u8_ok_drop heq
  · rename_i heq
    simp only [Except.ok.injEq, Prod.mk.injEq] at h
    obtain ⟨rfl, rfl⟩ := h
    exact be_u8_ok_drop heq
  · simp at h

lemma hwarp_ok_drop {buf rest : Input} {v : ArpHardwareType}
    (h : parse_dhcp_hwarp buf = .ok (rest, v)) : rest = buf.drop 1 := by
  simp only [parse_dhcp_hwarp, Nom.value, Nom.map] at h
  split at h
  · simp at h
  · rename_i r a heq
    simp only [Except.ok.injEq, Prod.mk.injEq] at h
    obtain ⟨rfl, rfl⟩ := h
    exact tag_ok heq

lemma flags_ok_drop {buf rest : Input} {v : Bool}
    (h : parse_flags buf = .ok (rest, v)) : rest = buf.drop 2 := by
  simp only [parse_flags] at h
  split at h
  · simp at h
  · rename_i r x heq
    have hr : rest = r := by
      split at h <;> simp_all
    subst hr
    exact be_u16_ok_drop heq

lemma ipv4_ok_drop {buf rest : Input} {v : Option Ipv4Addr}
    (h : parse_ipv4 buf = .ok (rest, v)) : rest = buf.drop 4 := by
  simp only [parse_ipv4] at h
  split at h
  · simp at h
  · rename_i r x heq
    simp only [Except.ok.injEq, Prod.mk.injEq] at h
    obtain ⟨rfl, rfl⟩ := h
    simp only [take4, Nom.map] at heq
    split at heq
    · simp at heq
    · rename_i r' x' heq2
      simp only [Except.ok.injEq, Prod.mk.injEq] at heq
      obtain ⟨rfl, rfl⟩ := heq
      exact (take_ok heq2).1

lemma chaddr_ok_drop {buf rest : Input} {v : MacAddr}
    (h : Nom.terminated parse_chaddr (Nom.take 192) buf = .ok (rest, v)) :
    rest = buf.drop 208 := by
  obtain ⟨r1, mac, h1, h2⟩ := andThen_ok h
  simp only [parse_chaddr] at h1
  obtain ⟨r2, mac', h3, h4⟩ := andThen_ok h1
  simp only [Nom.map] at h3 h4 h2
  have e2 : r2 = buf.drop 6 := by
    split at h3
    · simp at h3
    · rename_i r x heq
      simp only [Except.ok.injEq, Prod.mk.injEq] at h3
      obtain ⟨rfl, rfl⟩ := h3
      exact (take_ok heq).1
  have e1 : r1 = buf.drop 16 := by
    split at h4
    · simp at h4
    · rename_i r x heq
      simp only [Except.ok.injEq, Prod.mk.injEq] at h4
      obtain ⟨rfl, rfl⟩ := h4
      rw [(take_ok heq).1, e2, List.drop_drop]
  split at h2
  · simp at h2
  · rename_i r x heq
    simp only [Except.ok.injEq, Prod.mk.injEq] at h2
    obtain ⟨rfl, rfl⟩ := h2
    rw [(take_ok heq).1, e1, List.drop_drop]

lemma cookie_ok {buf rest x : Input}
    (h : Nom.verify (Nom.take 4)
      (fun x => x.length == 4 && x == [0x63, 0x82, 0x53, 0x63]) buf = .ok (rest, x)) :
    rest = buf.drop 4 ∧ buf.take 4 = [0x63, 0x82, 0x53, 0x63] := by
  simp only [Nom.verify] at h
  split at h
  · simp at h
  · rename_i r a heq
    split at h
    · rename_i hcond
      simp only [Except.ok.injEq, Prod.mk.injEq] at h
      obtain ⟨rfl, rfl⟩ := h
      obtain ⟨e1, e2, _⟩ := take_ok heq
      simp only [Bool.and_eq_true, beq_iff_eq] at hcond
      exact ⟨e1, by rw [← e2]; exact hcond.2⟩
    · simp at h

/-- The value produced by the chaddr-plus-reserved step is the MAC built
from the first six bytes of its input. -/
lemma chaddr_ok_value {buf rest : Input} {v : MacAddr}
    (h : Nom.terminated parse_chaddr (Nom.take 192) buf = .ok (rest, v)) :
    v = new_macaddr (buf.take 6) := by
  obtain ⟨r1, mac, h1, h2⟩ := andThen_ok h
  have hv : v = mac := by
    simp only [Nom.map] at h2
    split at h2
    · simp at h2
    · simp only [Except.ok.injEq, Prod.mk.injEq] at h2
      exact h2.2.symm
  simp only [parse_chaddr] at h1
  obtain ⟨r2, mac2, h3, h4⟩ := andThen_ok h1
  have hm : mac = mac2 := by
    simp only [Nom.map] at h4
    split at h4
    · simp at h4
    · simp only [Except.ok.injEq, Prod.mk.injEq] at h4
      exact h4.2.symm
  have hx : mac2 = new_macaddr (buf.take 6) := by
    simp only [Nom.map] at h3
    split at h3
    · simp at h3
    · rename_i r x heq
      simp only [Except.ok.injEq, Prod.mk.injEq] at h3
      rw [← h3.2, (take_ok heq).2.1]
  rw [hv, hm, hx]

/-- Success of the whole packet parse pins down the byte layout: the
4 bytes at offset 236 are the magic cookie, the option mapping of the
resulting packet is exactly the option-stream decode of the bytes from
offset 240 (with the same leftover input), and the decoded MAC address is
built from the 6 bytes at offset 28. -/
lemma DhcpPacket_parse_ok {buf rest : Input} {pkt : DhcpPacket}
    (h : DhcpPacket.parse buf = .ok (rest, pkt)) :
    (buf.drop 236).take 4 = [0x63, 0x82, 0x53, 0x63] ∧
      parse_dhcp_options (buf.drop 240) = .ok (rest, pkt.options) ∧
      pkt.chaddr = new_macaddr ((buf.drop 28).take 6) := by
  simp only [DhcpPacket.parse] at h
  obtain ⟨r1, opcode, h1, h⟩ := andThen_ok h
  obtain ⟨r2, htype, h2, h⟩ := andThen_ok h
  obtain ⟨r3, hlen, h3, h⟩ := andThen_ok h
  obtain ⟨r4, hops, h4, h⟩ := andThen_ok h
  obtain ⟨r5, xid, h5, h⟩ := andThen_ok h
  obtain ⟨r6, sec, h6, h⟩ := andThen_ok h
  obtain ⟨r7, bcast, h7, h⟩ := andThen_ok h
  obtain ⟨r8, ci, h8, h⟩ := andThen_ok h
  obtain ⟨r9, yi, h9, h⟩ := andThen_ok h
  obtain ⟨r10, si, h10, h⟩ := andThen_ok h
  obtain ⟨r11, gi, h11, h⟩ := andThen_ok h
  obtain ⟨r12, mac, h12, h⟩ := andThen_ok h
  obtain ⟨r13, ck, h13, h⟩ := andThen_ok h
  obtain ⟨r14, opts, h14, h⟩ := andThen_ok h
  simp only [Except.ok.injEq, Prod.mk.injEq] at h
  obtain ⟨rfl, hpkt⟩ := h
  have e1 : r1 = buf.drop 1 := opcode_ok_drop h1
  have e2 : r2 = buf.drop 2 := by rw [hwarp_ok_drop h2, e1, List.drop_drop]
  have e3 : r3 = buf.drop 3 := by rw [be_u8_ok_drop h3, e2, List.drop_drop]
  have e4 : r4 = buf.drop 4 := by rw [be_u8_ok_drop h4, e3, List.drop_drop]
  have e5 : r5 = buf.drop 8 := by rw [be_u32_ok_drop h5, e4, List.drop_drop]
  have e6 : r6 = buf.drop 10 := by rw [be_u16_ok_drop h6, e5, List.drop_drop]
  have e7 : r7 = buf.drop 12 := by rw [flags_ok_drop h7, e6, List.drop_drop]
  have e8 : r8 = buf.drop 16 := by rw [ipv4_ok_drop h8, e7, List.drop_drop]
  have e9 : r9 = buf.drop 20 := by rw [ipv4_ok_drop h9, e8, List.drop_drop]
  have e10 : r10 = buf.drop 24 := by rw [ipv4_ok_drop h10, e9, List.drop_drop]
  have e11 : r11 = buf.drop 28 := by rw [ipv4_ok_drop h11, e10, List.drop_drop]
  have e12 : r12 = buf.drop 236 := by rw [chaddr_ok_drop h12, e11, List.drop_drop]
  obtain ⟨e13, hmagic⟩ := cookie_ok h13
  rw [e12] at hmagic e13
  rw [List.drop_drop] at e13
  rw [e13] at h14
  have hmac : mac = new_macaddr ((buf.drop 28).take 6) := by
    rw [chaddr_ok_value h12, e11]
  subst hpkt
  exact ⟨hmagic, h14, hmac⟩

/-- Claim C5: the fixed-header decode consumes exactly 236 header bytes
and a 4-byte magic cookie: whenever the top-level decode produces a
packet, the four bytes at offset 236 equal `63 82 53 63` (so any input
whose cookie field differs yields no packet), and the packet's option
mapping is the option-stream decode of the bytes from offset 240. -/
theorem dhcp_c5 :
    ∀ (buf rest : Input) (pkt : DhcpPacket),
      DhcpPacket.parse buf = .ok (rest, pkt) →
      (buf.drop 236).take 4 = [0x63, 0x82, 0x53, 0x63] ∧
        parse_dhcp_options (buf.drop 240) = .ok (rest, pkt.options) :=
  fun _ _ _ h => ⟨(DhcpPacket_parse_ok h).1, (DhcpPacket_parse_ok h).2.1⟩

/-- Witness for `dhcp_c5` at a concrete well-formed 240-byte packet. -/
theorem dhcp_c5_witness :
    (goodHeader240.drop 236).take 4 = [0x63, 0x82, 0x53, 0x63] ∧
      parse_dhcp_options (goodHeader240.drop 240) =
        .ok ([], (goodPacket []).options) :=
  dhcp_c5 goodHeader240 [] (goodPacket []) rfl

lemma parse_ipv4_unwrapped_chunk {a b c d : Nat} {rest : Input}
    (h : ¬(a = 0 ∧ b = 0 ∧ c = 0 ∧ d = 0)) :
    parse_ipv4_unwrapped (a :: b :: c :: d :: rest) =
      .ok (rest, Ipv4Addr.new a b c d) := by
  have h4 : Nom.take 4 (a :: b :: c :: d :: rest) = .ok (rest, [a, b, c, d]) := by
    simp [Nom.take]
  have hne : ¬ ([a, b, c, d] = [0, 0, 0, 0]) := by simp; tauto
  simp only [parse_ipv4_unwrapped, parse_ipv4, take4, Nom.map, h4]
  rw [if_neg hne]
  rfl

lemma ipv4_fold_go :
    ∀ (fuel : Nat) (data : Input) (acc : List Ipv4Addr),
      data.length % 4 = 0 → noZeroChunk data = true → data.length < fuel →
      Nom.fold_go parse_ipv4_unwrapped (fun addrs addr => addrs ++ [addr]) fuel acc data
        = .ok ([], acc ++ specIpv4List data) := by
  intro fuel
  induction fuel with
  | zero => intro data acc _ _ h; omega
  | succ n ih =>
    intro data acc hmod hnz hlen
    rcases data with _ | ⟨a, _ | ⟨b, _ | ⟨c, _ | ⟨d, rest⟩⟩⟩⟩
    · simp [Nom.fold_go, parse_ipv4_unwrapped, parse_ipv4, take4, Nom.map,
            Nom.take, specIpv4List]
    · simp at hmod
    · simp at hmod
    · simp at hmod
    · have hz : ¬(a = 0 ∧ b = 0 ∧ c = 0 ∧ d = 0) := by
        rintro ⟨rfl, rfl, rfl, rfl⟩
        simp [noZeroChunk] at hnz
      have hrest : noZeroChunk rest = true := by
        simp only [noZeroChunk, Bool.and_eq_true] at hnz
        exact hnz.2
      have hstep : parse_ipv4_unwrapped (a :: b :: c :: d :: rest) =
          .ok (rest, Ipv4Addr.new a b c d) := parse_ipv4_unwrapped_chunk hz
      have hne : ¬ (rest = a :: b :: c :: d :: rest) := by
        intro hh
        have := congrArg List.length hh
        simp at this
        omega
      simp only [Nom.fold_go, hstep]
      rw [if_neg hne]
      have hmod' : rest.length % 4 = 0 := by
        simp only [List.length_cons] at hmod
        omega
      have hlen' : rest.length < n := by
        simp only [List.length_cons] at hlen
        omega
      rw [ih rest (acc ++ [Ipv4Addr.new a b c d]) hmod' hrest hlen']
      simp [specIpv4List]

lemma parse_ipv4_list_ok {data : Input} (hmod : data.length % 4 = 0)
    (hnz : noZeroChunk data = true) :
    parse_ipv4_list data = .ok ([], specIpv4List data) := by
  have := ipv4_fold_go (data.length + 1) data [] hmod hnz (by omega)
  simpa [parse_ipv4_list, Nom.fold_many0] using this

/-- Claim C6, amended: a router/DNS-server option decodes only if the
length byte is at least 4 and a multiple of 4 (length 6 fails), and for
every such length whose aligned 4-byte groups are each not all-zero the
result is the ordered list of len/4 IPv4 addresses read 4 bytes at a
time; an all-zero group aborts the decode (the source unwraps the
"absent" address) instead of producing the 0.0.0.0 address. -/
theorem dhcp_c6 :
    (∀ (len : Nat) (rest : Input), len < 4 ∨ len % 4 ≠ 0 →
      parse_ipv4_option_list (len :: rest) = .error .fail) ∧
    (∀ (len : Nat) (data rest : Input), data.length = len →
      4 ≤ len → len % 4 = 0 → noZeroChunk data = true →
      parse_ipv4_option_list (len :: (data ++ rest)) =
        .ok (rest, specIpv4List data)) := by
  constructor
  · intro len rest hbad
    have hc : (decide (4 ≤ len) && (len % 4 == 0)) = false := by
      rcases hbad with h | h
      · have h4 : ¬ (4 ≤ len) := by omega
        simp [h4]
      · simp [h]
    simp [parse_ipv4_option_list, Nom.mapParser, Nom.length_data, Nom.andThen,
          verify_option_length, Nom.verify, Nom.be_u8, hc]
  · intro len data rest hlen h4 hmod hnz
    have hc : (decide (4 ≤ len) && (len % 4 == 0)) = true := by simp [h4, hmod]
    have htake : Nom.take len (data ++ rest) = .ok (rest, data) := by
      simp only [Nom.take, List.length_append]
      rw [if_pos (by omega), List.drop_left' hlen, List.take_left' hlen]
    have hinner : parse_ipv4_list data = .ok ([], specIpv4List data) :=
      parse_ipv4_list_ok (by omega) hnz
    simp [parse_ipv4_option_list, Nom.mapParser, Nom.length_data, Nom.andThen,
          verify_option_length, Nom.verify, Nom.be_u8, hc, htake, hinner]

/-- Witness for `dhcp_c6`: length 6 fails; the spec's example (length 8,
value `C0 A8 01 01 C0 A8 01 02`) decodes to [192.168.1.1, 192.168.1.2]. -/
theorem dhcp_c6_witness :
    parse_ipv4_option_list [6, 1, 2, 3, 4, 5, 6] = .error .fail ∧
    parse_ipv4_option_list
        [8, 0xC0, 0xA8, 1, 1, 0xC0, 0xA8, 1, 2] =
      .ok ([], [Ipv4Addr.new 0xC0 0xA8 1 1, Ipv4Addr.new 0xC0 0xA8 1 2]) :=
  ⟨dhcp_c6.1 6 [1, 2, 3, 4, 5, 6] (by omega),
   dhcp_c6.2 8 [0xC0, 0xA8, 1, 1, 0xC0, 0xA8, 1, 2] [] rfl (by omega) rfl rfl⟩

/-- Evaluation of the chaddr-plus-reserved step on an input whose first 6
bytes are explicit and are followed by a 202-byte region (10 reserved
chaddr bytes plus 192 reserved BOOTP bytes) and arbitrary further bytes:
it succeeds, consumes exactly the 208 bytes, and its value only uses the
6 explicit bytes. -/
lemma chaddr_mid (a b c d e f : Nat) (m post : Input) (hm : m.length = 202) :
    Nom.terminated parse_chaddr (Nom.take 192)
        (a :: b :: c :: d :: e :: f :: (m ++ post)) =
      .ok (post, new_macaddr [a, b, c, d, e, f]) := by
  have e6 : Nom.take 6 (a :: b :: c :: d :: e :: f :: (m ++ post)) =
      .ok (m ++ post, [a, b, c, d, e, f]) := by
    simp [Nom.take]
  have e10 : Nom.take 10 (m ++ post) = .ok (m.drop 10 ++ post, m.take 10) := by
    simp only [Nom.take, List.length_append]
    rw [if_pos (by omega), List.drop_append_of_le_length (by omega),
        List.take_append_of_le_length (by omega)]
  have hl : (m.drop 10).length = 192 := by simp [hm]
  have e192 : Nom.take 192 (m.drop 10 ++ post) = .ok (post, m.drop 10) := by
    simp only [Nom.take, List.length_append]
    rw [if_pos (by omega), List.drop_left' hl, List.take_left' hl]
  simp [Nom.terminated, Nom.andThen, parse_chaddr, Nom.map, e6, e10, e192]

lemma BootpOpcode_parse_eval (x : Nat) (t : Input) :
    BootpOpcode.parse (x :: t) =
      if x = 1 then .ok (t, .BootRequest)
      else if x = 2 then .ok (t, .BootReply)
      else .error .panic := by
  simp only [BootpOpcode.parse, Nom.be_u8]
  split
  · rename_i e heq
    simp at heq
  · rename_i rest heq
    simp only [Except.ok.injEq, Prod.mk.injEq] at heq
    obtain ⟨rfl, rfl⟩ := heq
    simp
  · rename_i rest heq
    simp only [Except.ok.injEq, Prod.mk.injEq] at heq
    obtain ⟨rfl, rfl⟩ := heq
    simp
  · rename_i fst snd hh1 hh2 heq
    simp only [Except.ok.injEq, Prod.mk.injEq] at heq
    obtain ⟨rfl, rfl⟩ := heq
    rw [if_neg hh1, if_neg hh2]

lemma parse_dhcp_hwarp_eval (x : Nat) (t : Input) :
    parse_dhcp_hwarp (x :: t) =
      if x = 1 then .ok (t, ArpHardwareTypes.Ethernet) else .error .fail := by
  by_cases h : x = 1
  · subst h
    simp [parse_dhcp_hwarp, Nom.value, Nom.map, Nom.tag, List.isPrefixOf]
  · have h' : (1 : Nat) ≠ x := Ne.symm h
    simp [parse_dhcp_hwarp, Nom.value, Nom.map, Nom.tag, List.isPrefixOf, h, h']

lemma parse_flags_eval (x y : Nat) (t : Input) :
    parse_flags (x :: y :: t) =
      if x * 256 + y = 0x8000 then .ok (t, true)
      else if x * 256 + y = 0 then .ok (t, false)
      else .error .panic := by
  simp only [parse_flags, Nom.be_u16]
  split
  · rename_i heq
    rw [if_pos heq]
  · rename_i heq
    rw [if_neg (by omega), if_pos heq]
  · rename_i hh1 hh2
    rw [if_neg hh1, if_neg hh2]

lemma parse_ipv4_eval (a b c d : Nat) (t : Input) :
    parse_ipv4 (a :: b :: c :: d :: t) =
      .ok (t, if [a, b, c, d] = [0, 0, 0, 0] then none
              else some (Ipv4Addr.new a b c d)) := by
  simp [parse_ipv4, take4, Nom.map, Nom.take, List.getD]

/-- Claim C9: two-run independence of the reserved regions. Buffers that
agree except in the 202 bytes at offset 34 (the 10 bytes after the 6-byte
MAC inside the 16-byte chaddr region, plus the 192 reserved BOOTP
server-name/boot-file bytes) decode identically, and the decoded MAC is
always the first 6 bytes of the chaddr region (offset 28). -/
theorem dhcp_c9 :
    ∀ (pre mid1 mid2 post : Input),
      pre.length = 34 → mid1.length = 202 → mid2.length = 202 →
      DhcpPacket.parse (pre ++ mid1 ++ post) =
        DhcpPacket.parse (pre ++ mid2 ++ post) ∧
      (∀ (rest : Input) (pkt : DhcpPacket),
        DhcpPacket.parse (pre ++ mid1 ++ post) = .ok (rest, pkt) →
        pkt.chaddr = new_macaddr (pre.drop 28)) := by
  intro pre mid1 mid2 post h1 h2 h3
  obtain ⟨b0, pre, rfl⟩ := List.exists_of_length_succ pre (show pre.length = 33 + 1 by omega)
  simp only [List.length_cons] at h1
  obtain ⟨b1, pre, rfl⟩ := List.exists_of_length_succ pre (show pre.length = 32 + 1 by omega)
  simp only [List.length_cons] at h1
  obtain ⟨b2, pre, rfl⟩ := List.exists_of_length_succ pre (show pre.length = 31 + 1 by omega)
  simp only [List.length_cons] at h1
  obtain ⟨b3, pre, rfl⟩ := List.exists_of_length_succ pre (show pre.length = 30 + 1 by omega)
  simp only [List.length_cons] at h1
  obtain ⟨b4, pre, rfl⟩ := List.exists_of_length_succ pre (show pre.length = 29 + 1 by omega)
  simp only [List.length_cons] at h1
  obtain ⟨b5, pre, rfl⟩ := List.exists_of_length_succ pre (show pre.length = 28 + 1 by omega)
  simp only [List.length_cons] at h1
  obtain ⟨b6, pre, rfl⟩ := List.exists_of_length_succ pre (show pre.length = 27 + 1 by omega)
  simp only [List.length_cons] at h1
  obtain ⟨b7, pre, rfl⟩ := List.exists_of_length_succ pre (show pre.length = 26 + 1 by omega)
  simp only [List.length_cons] at h1
  obtain ⟨b8, pre, rfl⟩ := List.exists_of_length_succ pre (show pre.length = 25 + 1 by omega)
  simp only [List.length_cons] at h1
  obtain ⟨b9, pre, rfl⟩ := List.exists_of_length_succ pre (show pre.length = 24 + 1 by omega)
  simp only [List.length_cons] at h1
  obtain ⟨b10, pre, rfl⟩ := List.exists_of_length_succ pre (show pre.length = 23 + 1 by omega)
  simp only [List.length_cons] at h1
  obtain ⟨b11, pre, rfl⟩ := List.exists_of_length_succ pre (show pre.length = 22 + 1 by omega)
  simp only [List.length_cons] at h1
  obtain ⟨b12, pre, rfl⟩ := List.exists_of_length_succ pre (show pre.length = 21 + 1 by omega)
  simp only [List.length_cons] at h1
  obtain ⟨b13, pre, rfl⟩ := List.exists_of_length_succ pre (show pre.length = 20 + 1 by omega)
  simp only [List.length_cons] at h1
  obtain ⟨b14, pre, rfl⟩ := List.exists_of_length_succ pre (show pre.length = 19 + 1 by omega)
  simp only [List.length_cons] at h1
  obtain ⟨b15, pre, rfl⟩ := List.exists_of_length_succ pre (show pre.length = 18 + 1 by omega)
  simp only [List.length_cons] at h1
  obtain ⟨b16, pre, rfl⟩ := List.exists_of_length_succ pre (show pre.length = 17 + 1 by omega)
  simp only [List.length_cons] at h1
  obtain ⟨b17, pre, rfl⟩ := List.exists_of_length_succ pre (show pre.length = 16 + 1 by omega)
  simp only [List.length_cons] at h1
  obtain ⟨b18, pre, rfl⟩ := List.exists_of_length_succ pre (show pre.length = 15 + 1 by omega)
  simp only [List.length_cons] at h1
  obtain ⟨b19, pre, rfl⟩ := List.exists_of_length_succ pre (show pre.length = 14 + 1 by omega)
  simp only [List.length_cons] at h1
  obtain ⟨b20, pre, rfl⟩ := List.exists_of_length_succ pre (show pre.length = 13 + 1 by omega)
  simp only [List.length_cons] at h1
  obtain ⟨b21, pre, rfl⟩ := List.exists_of_length_succ pre (show pre.length = 12 + 1 by omega)
  simp only [List.length_cons] at h1
  obtain ⟨b22, pre, rfl⟩ := List.exists_of_length_succ pre (show pre.length = 11 + 1 by omega)
  simp only [List.length_cons] at h1
  obtain ⟨b23, pre, rfl⟩ := List.exists_of_length_succ pre (show pre.length = 10 + 1 by omega)
  simp only [List.length_cons] at h1
  obtain ⟨b24, pre, rfl⟩ := List.exists_of_length_succ pre (show pre.length = 9 + 1 by omega)
  simp only [List.length_cons] at h1
  obtain ⟨b25, pre, rfl⟩ := List.exists_of_length_succ pre (show pre.length = 8 + 1 by omega)
  simp only [List.length_cons] at h1
  obtain ⟨b26, pre, rfl⟩ := List.exists_of_length_succ pre (show pre.length = 7 + 1 by omega)
  simp only [List.length_cons] at h1
  obtain ⟨b27, pre, rfl⟩ := List.exists_of_length_succ pre (show pre.length = 6 + 1 by omega)
  simp only [List.length_cons] at h1
  obtain ⟨b28, pre, rfl⟩ := List.exists_of_length_succ pre (show pre.length = 5 + 1 by omega)
  simp only [List.length_cons] at h1
  obtain ⟨b29, pre, rfl⟩ := List.exists_of_length_succ pre (show pre.length = 4 + 1 by omega)
  simp only [List.length_cons] at h1
  obtain ⟨b30, pre, rfl⟩ := List.exists_of_length_succ pre (show pre.length = 3 + 1 by omega)
  simp only [List.length_cons] at h1
  obtain ⟨b31, pre, rfl⟩ := List.exists_of_length_succ pre (show pre.length = 2 + 1 by omega)
  simp only [List.length_cons] at h1
  obtain ⟨b32, pre, rfl⟩ := List.exists_of_length_succ pre (show pre.length = 1 + 1 by omega)
  simp only [List.length_cons] at h1
  obtain ⟨b33, pre, rfl⟩ := List.exists_of_length_succ pre (show pre.length = 0 + 1 by omega)
  simp only [List.length_cons] at h1
  have hnil : pre = [] := List.length_eq_zero.mp (by omega)
  subst hnil
  constructor
  · simp only [List.cons_append, List.nil_append]
    simp only [DhcpPacket.parse, Nom.andThen, BootpOpcode_parse_eval,
               parse_dhcp_hwarp_eval, Nom.be_u8, Nom.be_u16, Nom.be_u32,
               parse_flags_eval, parse_ipv4_eval, chaddr_mid, h2, h3]
    repeat' (first | rfl | (split_ifs <;> simp only [DhcpPacket.parse,
      Nom.andThen, BootpOpcode_parse_eval, parse_dhcp_hwarp_eval, Nom.be_u8,
      Nom.be_u16, Nom.be_u32, parse_flags_eval, parse_ipv4_eval, chaddr_mid,
      h2, h3]))
  · intro rest pkt hp
    have hc := (DhcpPacket_parse_ok hp).2.2
    rw [hc]
    simp

/-- Witness for `dhcp_c9`: the same 34-byte prefix and cookie-only tail
with two different 202-byte reserved regions (all zeros vs all sevens)
decode identically, and the decoded MAC is the prefix's bytes 28-33. -/
theorem dhcp_c9_witness :
    DhcpPacket.parse (pre9 ++ List.replicate 202 0 ++ [0x63, 0x82, 0x53, 0x63]) =
      DhcpPacket.parse (pre9 ++ List.replicate 202 7 ++ [0x63, 0x82, 0x53, 0x63]) ∧
    (goodPacket []).chaddr = new_macaddr (pre9.drop 28) :=
  ⟨(dhcp_c9 pre9 (List.replicate 202 0) (List.replicate 202 7)
      [0x63, 0x82, 0x53, 0x63] rfl (by simp) (by simp)).1,
   (dhcp_c9 pre9 (List.replicate 202 0) (List.replicate 202 7)
      [0x63, 0x82, 0x53, 0x63] rfl (by simp) (by simp)).2 [] (goodPacket []) (by rfl)⟩
